import Mathlib

/-!
Verification of the crawler-session orchestrator of `domain_discovery_tool`
(`src/models/crawlermodel.py`, `src/elastic/get_documents.py`).

Python strings are embedded as `List Char`; the Python string operations the
code relies on (`split`, `join`, the substring test `tag in s`, and
`list.remove`) are defined below with Python's exact semantics:
`''.split(';') == ['']`, `remove` drops the first occurrence and fails when the
element is absent.  Stateful Elasticsearch interaction is embedded as explicit
state passing over a store mapping document ids to their raw tag strings;
fallible code (Python exceptions) returns `Option`, with `none` marking a
raised exception.
-/

namespace DDT

/-!
## Definitions

The Elasticsearch index is embedded as a store mapping a document id (page
`url` / term `term`) to the raw semicolon-joined tag string of the stored
record, `none` meaning no stored record; per the spec's data model a stored
page or term always carries its `tag` field.  In the tagging loops,
`tag not in results.get(page)['tag']` and `tag in old_tag` are Python
substring tests on the raw tag string, embedded with `substrB`.

External collaborators are embedded as oracle parameters (the `range` query
and the term-statistics and reduction routines), and the parts of the
repository outside the sources (`elastic/add_documents.py`,
`elastic/search_documents.py`) are modelled from the spec where marked.
-/

/-- Python strings, embedded as lists of characters. -/
abbrev Str := List Char

/-- Coerce a Lean string literal into the embedding. -/
def str (s : String) : Str := s.data

/-- The test `pyStartsWith pat s` is Python's `s.startswith(pat)`:
`pat` is a prefix of `s`. -/
def pyStartsWith : Str → Str → Bool
  | [], _ => true
  | _ :: _, [] => false
  | a :: pat, b :: s => a = b && pyStartsWith pat s

/-- The test `substrB pat s` is Python's substring test `pat in s`:
`pat` occurs contiguously inside `s`. -/
def substrB (pat : Str) (s : Str) : Bool :=
  pyStartsWith pat s ||
    match s with
    | [] => false
    | _ :: s' => substrB pat s'

/-- Helper for `pysplit`: returns the first chunk (up to the first separator)
and the list of remaining chunks. -/
def pysplitAux (sep : Char) : Str → Str × List Str
  | [] => ([], [])
  | c :: cs =>
    if c = sep then ([], (pysplitAux sep cs).1 :: (pysplitAux sep cs).2)
    else (c :: (pysplitAux sep cs).1, (pysplitAux sep cs).2)

/-- Python's `s.split(sep)` for a one-character separator.
Note `pysplit sep [] = [[]]`, exactly as `''.split(';') == ['']`. -/
def pysplit (sep : Char) (s : Str) : List Str :=
  (pysplitAux sep s).1 :: (pysplitAux sep s).2

/-- Python's `sep.join(chunks)` for a one-character separator. -/
def pyjoin (sep : Char) : List Str → Str
  | [] => []
  | [x] => x
  | x :: y :: ys => x ++ sep :: pyjoin sep (y :: ys)

/-- Python's `l.remove(a)`: drops the first occurrence of `a`;
`none` models the `ValueError` raised when `a` is absent. -/
def pyremove (a : Str) : List Str → Option (List Str)
  | [] => none
  | x :: xs => if x = a then some xs else (pyremove a xs).map (x :: ·)

/-- Python's `dict.get(k)` over an association list built by insertion. -/
def dictGet (results : List (Str × Str)) (k : Str) : Option Str :=
  match results with
  | [] => none
  | (k', v) :: rest => if k' = k then some v else dictGet rest k

/-- The stored state of one index/doc-type: id to raw tag string. -/
abbrev Store := Str → Option Str

/-- One entry handed to the Document Gateway: the Python dicts
`{'url': ..., 'tag': ...}` (pages) and `{'term': ..., 'tag': ...}` (terms). -/
structure TagEntry where
  id : Str
  tag : Str
deriving DecidableEq, Repr

/-- The per-id results dictionary built by `get_documents`
(src/elastic/get_documents.py): one search per id, keeping ids that have a
stored record, mapped to their `tag` field. -/
def resultsOf (ids : List Str) (store : Store) : List (Str × Str) :=
  ids.filterMap (fun i => (store i).map (fun s => (i, s)))

/-- The fetch helper `get_documents` (src/elastic/get_documents.py): the `results` dictionary
is only bound inside the `len(terms) > 0` branch, so an empty id list raises
`UnboundLocalError` at `return results`, embedded as `none`. -/
def get_documents (ids : List Str) (store : Store) : Option (List (Str × Str)) :=
  if ids.length > 0 then some (resultsOf ids store) else none

/-- Modelled from the spec: `update(records, keyField, datasetId, docType)` of
the Document Gateway (`elastic/add_documents.update_document` is not among the
sources) upserts each record into the store by its key field, in order. -/
def update_document (entries : List TagEntry) (store : Store) : Store :=
  entries.foldl (fun st e => fun u => if u = e.id then some e.tag else st u) store

/-- Modelled from the spec: `create(records, datasetId, docType)` of the
Document Gateway (`elastic/add_documents.add_document` is not among the
sources) stores each record under its key field, in order. -/
def add_document (entries : List TagEntry) (store : Store) : Store :=
  entries.foldl (fun st e => fun u => if u = e.id then some e.tag else st u) store

/-- One batched Document Gateway submission. -/
inductive GatewayCall where
  | create (entries : List TagEntry)
  | update (entries : List TagEntry)
deriving DecidableEq, Repr

/-- The `entries` list computed by the `applyTagFlag = True` loop of
`setPagesTag` (crawlermodel.py lines 338-355). -/
def setPagesTagAddEntries (results : List (Str × Str)) (pages : List Str)
    (tag : Str) : List TagEntry :=
  pages.filterMap (fun page =>
    if results.length > 0 then
      match dictGet results page with
      | none => some ⟨page, tag⟩
      | some old =>
        if substrB tag old = false then some ⟨page, old ++ ';' :: tag⟩ else none
    else some ⟨page, tag⟩)

/-- The `applyTagFlag = False` loop of `setPagesTag` (lines 356-367):
`tags.remove(tag)` raises `ValueError` when the substring test passed but the
tag is not a list element, aborting the whole call (`none`). -/
def setPagesTagRemoveEntries (results : List (Str × Str)) (pages : List Str)
    (tag : Str) : Option (List TagEntry) :=
  match pages with
  | [] => some []
  | page :: rest =>
    if results.length > 0 then
      match dictGet results page with
      | some old =>
        if substrB tag old then
          match pyremove tag (pysplit ';' old) with
          | none => none
          | some tags =>
            (setPagesTagRemoveEntries results rest tag).map
              (fun es => ⟨page, pyjoin ';' tags⟩ :: es)
        else setPagesTagRemoveEntries results rest tag
      | none => setPagesTagRemoveEntries results rest tag
    else setPagesTagRemoveEntries results rest tag

/-- The batch of entries `setPagesTag` hands to `update_document`. -/
def setPagesTagOps (pages : List Str) (tag : Str) (applyTagFlag : Bool)
    (store : Store) : Option (List TagEntry) :=
  (get_documents pages store).bind (fun results =>
    if applyTagFlag then some (setPagesTagAddEntries results pages tag)
    else setPagesTagRemoveEntries results pages tag)

/-- The operation `CrawlerModel.setPagesTag` as a state transformer on the page store;
line 369 submits all entries in one `update_document` batch. -/
def setPagesTag (pages : List Str) (tag : Str) (applyTagFlag : Bool)
    (store : Store) : Option Store :=
  (setPagesTagOps pages tag applyTagFlag store).map
    (fun entries => update_document entries store)

/-- The Document Gateway submissions issued by `setPagesTag`: a single
unconditional `update_document` call (line 369). -/
def setPagesTagCalls (pages : List Str) (tag : Str) (applyTagFlag : Bool)
    (store : Store) : Option (List GatewayCall) :=
  (setPagesTagOps pages tag applyTagFlag store).map
    (fun entries => [GatewayCall.update entries])

/-- The `add_entries` list of the `applyTagFlag = True` loop of `setTermsTag`
(crawlermodel.py lines 383-409): terms with no stored record. -/
def setTermsTagAddEntries (results : List (Str × Str)) (terms : List Str)
    (tag : Str) : List TagEntry :=
  terms.filterMap (fun term =>
    if results.length > 0 then
      match dictGet results term with
      | none => some ⟨term, tag⟩
      | some _ => none
    else some ⟨term, tag⟩)

/-- The `update_entries` list of the same loop: terms whose stored tag string
does not contain the tag as a substring get it appended. -/
def setTermsTagUpdateEntries (results : List (Str × Str)) (terms : List Str)
    (tag : Str) : List TagEntry :=
  terms.filterMap (fun term =>
    if results.length > 0 then
      match dictGet results term with
      | none => none
      | some old =>
        if substrB tag old = false then some ⟨term, old ++ ';' :: tag⟩ else none
    else none)

/-- The `applyTagFlag = False` loop of `setTermsTag` (lines 410-424):
`tags = tags.remove(tag)` rebinds `tags` to `None`, so whenever the substring
test passes the subsequent `';'.join(tags)` raises `TypeError` (and with a
substring-only occurrence `remove` already raises `ValueError`); either way
the call aborts, embedded as `none`.  No entry is ever emitted. -/
def setTermsTagRemoveEntries (results : List (Str × Str)) (terms : List Str)
    (tag : Str) : Option (List TagEntry × List TagEntry) :=
  match terms with
  | [] => some ([], [])
  | term :: rest =>
    if results.length > 0 then
      match dictGet results term with
      | some old =>
        if substrB tag old then none
        else setTermsTagRemoveEntries results rest tag
      | none => setTermsTagRemoveEntries results rest tag
    else setTermsTagRemoveEntries results rest tag

/-- The `(add_entries, update_entries)` pair computed by `setTermsTag`. -/
def setTermsTagOps (terms : List Str) (tag : Str) (applyTagFlag : Bool)
    (store : Store) : Option (List TagEntry × List TagEntry) :=
  (get_documents terms store).bind (fun results =>
    if applyTagFlag then
      some (setTermsTagAddEntries results terms tag,
            setTermsTagUpdateEntries results terms tag)
    else setTermsTagRemoveEntries results terms tag)

/-- The operation `CrawlerModel.setTermsTag` as a state transformer on the term store;
lines 426-430 submit `add_entries` via `add_document` and then
`update_entries` via `update_document`, each only when nonempty. -/
def setTermsTag (terms : List Str) (tag : Str) (applyTagFlag : Bool)
    (store : Store) : Option Store :=
  (setTermsTagOps terms tag applyTagFlag store).map (fun ops =>
    let st1 := if ops.1 = [] then store else add_document ops.1 store
    if ops.2 = [] then st1 else update_document ops.2 st1)

/-- The Document Gateway submissions issued by `setTermsTag`: the
`add_document` batch (when nonempty) followed by the `update_document` batch
(when nonempty). -/
def setTermsTagCalls (terms : List Str) (tag : Str) (applyTagFlag : Bool)
    (store : Store) : Option (List GatewayCall) :=
  (setTermsTagOps terms tag applyTagFlag store).map (fun ops =>
    (if ops.1 = [] then [] else [GatewayCall.create ops.1]) ++
    (if ops.2 = [] then [] else [GatewayCall.update ops.2]))

/-- The literal argument tuple of the `range(...)` call
(crawlermodel.py lines 161-165). -/
structure RangeArgs where
  field : Str
  ts1 : Int
  ts2 : Int
  returnFields : List Str
  epoch : Bool
  index : Str

/-- One step of the counting loop of `getPagesSummarySeedCrawler`
(lines 172-184): accumulator `(relevant, irrelevant, neutral)`.  A missing
`tag` field raises `KeyError`, caught and counted neutral. -/
def pageSummaryStep (acc : Nat × Nat × Nat) (res : Option (List Str)) : Nat × Nat × Nat :=
  match res with
  | none => (acc.1, acc.2.1, acc.2.2 + 1)
  | some tags =>
    if str "Relevant" ∈ tags then (acc.1 + 1, acc.2.1, acc.2.2)
    else if str "Irrelevant" ∈ tags then (acc.1, acc.2.1 + 1, acc.2.2)
    else (acc.1, acc.2.1, acc.2.2 + 1)

/-- The counting loop of `getPagesSummarySeedCrawler` (lines 167-190), as a
left fold over the fetched records. -/
def pageSummaryCounts (results : List (Option (List Str))) : Nat × Nat × Nat :=
  results.foldl pageSummaryStep (0, 0, 0)

/-- The summary `CrawlerModel.getPagesSummarySeedCrawler` (lines 143-190) for given
timestamps: both arms of the `opt_applyFilter` conditional issue the very same
`range` call, written out branch by branch as in the source. -/
def getPagesSummarySeedCrawler (queryRange : RangeArgs → List (Option (List Str)))
    (ts1 ts2 : Int) (index : Str) (applyFilterFlag : Bool) : Nat × Nat × Nat :=
  pageSummaryCounts
    (if applyFilterFlag then
      queryRange ⟨str "retrieved", ts1, ts2, [str "url", str "tag"], true, index⟩
    else
      queryRange ⟨str "retrieved", ts1, ts2, [str "url", str "tag"], true, index⟩)

/-- A fetched record counted in the relevant bucket: its tag set is present
and holds `Relevant`. -/
def relevantDoc : Option (List Str) → Bool
  | none => false
  | some tags => decide (str "Relevant" ∈ tags)

/-- A fetched record counted in the irrelevant bucket: its tag set is present,
holds `Irrelevant` and not `Relevant` (Relevant wins). -/
def irrelevantOnlyDoc : Option (List Str) → Bool
  | none => false
  | some tags => decide (str "Relevant" ∉ tags) && decide (str "Irrelevant" ∈ tags)

/-- A fetched record counted in the neutral bucket: everything else,
including records with no tag field. -/
def neutralDoc (res : Option (List Str)) : Bool :=
  !(relevantDoc res) && !(irrelevantOnlyDoc res)

/-- The session fields of `CrawlerModel` (`_activeCrawlerIndex`, `_filter`,
`_pagesCap`); the Elasticsearch handle is outside the model. -/
structure CrawlerSession where
  activeCrawlerIndex : Option Str
  filter : Option Str
  pagesCap : Nat
deriving DecidableEq, Repr

/-- The operation `CrawlerModel.applyFilter` (lines 453-457): `if terms:` is Python
truthiness, false for `None` and for the empty string. -/
def applyFilter (session : CrawlerSession) (terms : Option Str) : CrawlerSession :=
  match terms with
  | none => session
  | some t => if t = [] then session else { session with filter := some t }

/-- Decode a raw tag field (absent or a string) into the tag list. -/
def decode (raw : Option Str) : List Str :=
  match raw with
  | none => []
  | some s => pysplit ';' s

/-- Encode a tag list into the stored string. -/
def encode (tags : List Str) : Str := pyjoin ';' tags

/-- A page record as handled by `getPages`/`pcaProjectPages`:
the list `[url, x, y, tags, retrieved]`. -/
structure DocRow where
  url : Str
  x : Int
  y : Int
  tag : List Str
  retrieved : Int
deriving DecidableEq, Repr

/-- The wrapper `CrawlerModel.runPCASKLearn` (lines 489-493): delegates to the external
reduction routine, returning `[explained_variance_ratio, transformed rows]`. -/
def runPCASKLearn (pcaFit : List (List Int) → Nat → List Int × List (List Int))
    (X : List (List Int)) (pc_count : Nat) : List Int × List (List Int) :=
  pcaFit X pc_count

/-- The coordinate-merge loop of `pcaProjectPages` (lines 474-478): walk pages
and reduced rows in step, `break` once rows run out (remaining pages keep
their coordinates); `page[1] = row[0]` / `page[2] = row[1]` raise `IndexError`
on a row shorter than 2, embedded as `none`. -/
def mergeCoords : List DocRow → List (List Int) → Option (List DocRow)
  | pages, [] => some pages
  | [], _ :: _ => some []
  | p :: ps, row :: rows =>
    match row with
    | a :: b :: _ =>
      (mergeCoords ps rows).map (fun rest => { p with x := a, y := b } :: rest)
    | _ => none

/-- The projection `CrawlerModel.pcaProjectPages` (lines 465-480): extract the urls in page
order, fetch the term-frequency matrix, reduce it configured for exactly 2
output dimensions, and merge the resulting coordinates back into the pages. -/
def pcaProjectPages (tfidfData : List Str → List (List Int))
    (pcaFit : List (List Int) → Nat → List Int × List (List Int))
    (pages : List DocRow) : Option (List DocRow) :=
  mergeCoords pages
    (runPCASKLearn pcaFit (tfidfData (pages.map (fun p => p.url))) 2).2

/-- The summary `CrawlerModel.getTermsSummarySeedCrawler` (lines 217-257).  The term tags
come from `get_documents` over the terms store, so an empty top-terms list
would raise there (`none`). -/
def getTermsSummarySeedCrawler (posRel allIds negUrls : List Str)
    (topTermsOf : List Str → Nat → List Str) (ttfOf : List Str → Str → Option Nat)
    (termStore : Store) (maxTerms : Nat) : Option (List (Str × Nat × Nat × List Str)) :=
  let posUrls := if posRel.length = 0 then allIds else posRel
  if posUrls.length > 1 then
    (get_documents (topTermsOf posUrls maxTerms) termStore).map (fun tags =>
      let posFreq : Str → Nat :=
        if posRel.length = 0 then (fun _ => 0)
        else (fun key => (ttfOf posUrls key).getD 0)
      let negFreq : Str → Nat :=
        if negUrls.length > 1 then (fun key => (ttfOf negUrls key).getD 0)
        else (fun _ => 0)
      (topTermsOf posUrls maxTerms).map (fun term =>
        (term, posFreq term, negFreq term,
          match dictGet tags term with
          | none => []
          | some s => pysplit ';' s)))
  else some []

/-- What the add loop does per page, phrased against the store. -/
def pageAddSpec (store : Store) (tag : Str) (page : Str) : Option TagEntry :=
  match store page with
  | none => some ⟨page, tag⟩
  | some old =>
    if substrB tag old = false then some ⟨page, old ++ ';' :: tag⟩ else none

/-- What the add loop of `setTermsTag` emits as creates, per term. -/
def termCreateSpec (store : Store) (tag : Str) (term : Str) : Option TagEntry :=
  match store term with
  | none => some ⟨term, tag⟩
  | some _ => none

/-- What the add loop of `setTermsTag` emits as updates, per term. -/
def termUpdateSpec (store : Store) (tag : Str) (term : Str) : Option TagEntry :=
  match store term with
  | none => none
  | some old =>
    if substrB tag old = false then some ⟨term, old ++ ';' :: tag⟩ else none

/-- Concrete store for the C1 counterexample: one page whose stored tag
string is `Positively`. -/
def storeSubstr : Store :=
  fun u => if u = str "p" then some (str "Positively") else none

/-- Concrete store for the C1 witness and C3 scenario: page `b` is stored
with tag string `Negative`; page `a` has no record. -/
def storeW : Store :=
  fun u => if u = str "b" then some (str "Negative") else none

/-- Concrete store for the C2 counterexample: one page already tagged `X`. -/
def storeX : Store := fun u => if u = str "p" then some (str "X") else none

/-- Concrete store for the C2 witness: one page stored with tag string
`Negative`. -/
def storeP : Store :=
  fun u => if u = str "p" then some (str "Negative") else none

/-- Concrete oracles for the C7 witness: a reduction that returns a single
2-entry row for a 2-page input, exercising the unchanged-tail path. -/
def tfidfW : List Str → List (List Int) := fun _ => [[1, 2], [3, 4]]

/-- Concrete reduction oracle for the C7 witness. -/
def pcaW : List (List Int) → Nat → List Int × List (List Int) :=
  fun _ _ => ([], [[10, 20]])

/-- Concrete page list for the C7 witness. -/
def pagesW : List DocRow :=
  [⟨str "u1", 0, 0, [], 0⟩, ⟨str "u2", 7, 8, [], 0⟩]

/-- Concrete ranking oracles for the C8 witness. -/
def topTermsW : List Str → Nat → List Str := fun _ _ => [str "ebola"]

/-- Concrete term-frequency oracle for the C8 witness. -/
def ttfW : List Str → Str → Option Nat := fun _ _ => some 7

/-- Concrete empty terms store for the C8 witness. -/
def termStoreW : Store := fun _ => none

/-!
## Theorems
-/

theorem pyStartsWith_append (pat rest : Str) : pyStartsWith pat (pat ++ rest) = true := by
  induction pat with
  | nil => rfl
  | cons a pat ih => simp [pyStartsWith, ih]

theorem substrB_cons (pat : Str) (c : Char) (s : Str) :
    substrB pat (c :: s) = (pyStartsWith pat (c :: s) || substrB pat s) := by
  rw [substrB.eq_def]

theorem substrB_of_decomp (pat a b : Str) : substrB pat (a ++ pat ++ b) = true := by
  induction a with
  | nil =>
    rw [List.nil_append, substrB.eq_def]
    rw [pyStartsWith_append]
    simp
  | cons c a ih =>
    have hc : c :: a ++ pat ++ b = c :: (a ++ pat ++ b) := by simp
    rw [hc, substrB_cons, ih]
    simp

theorem substrB_sandwich (pat a b : Str) : substrB pat (a ++ (pat ++ b)) = true := by
  have h := substrB_of_decomp pat a b
  rw [List.append_assoc] at h
  exact h

theorem pyjoin_cons_cons (sep : Char) (x y : Str) (ys : List Str) :
    pyjoin sep (x :: y :: ys) = x ++ sep :: pyjoin sep (y :: ys) := rfl

theorem pysplit_cons_form (sep : Char) (s : Str) :
    pysplit sep s = (pysplitAux sep s).1 :: (pysplitAux sep s).2 := rfl

/-- Joining the chunks of a split gives the original string back. -/
theorem pyjoin_pysplit (sep : Char) (s : Str) : pyjoin sep (pysplit sep s) = s := by
  induction s with
  | nil => rfl
  | cons c cs ih =>
    rw [pysplit_cons_form] at ih ⊢
    by_cases hc : c = sep
    · rw [show pysplitAux sep (c :: cs) =
          ([], (pysplitAux sep cs).1 :: (pysplitAux sep cs).2) by
            rw [pysplitAux]; rw [if_pos hc]]
      rw [pyjoin_cons_cons, ih, List.nil_append, hc]
    · rw [show pysplitAux sep (c :: cs) =
          (c :: (pysplitAux sep cs).1, (pysplitAux sep cs).2) by
            rw [pysplitAux]; rw [if_neg hc]]
      show pyjoin sep ((c :: (pysplitAux sep cs).1) :: (pysplitAux sep cs).2) = c :: cs
      cases ht : (pysplitAux sep cs).2 with
      | nil =>
        rw [ht] at ih
        simp only [pyjoin] at ih ⊢
        rw [ih]
      | cons h2 t2 =>
        rw [ht] at ih
        rw [pyjoin_cons_cons] at ih ⊢
        rw [List.cons_append, ih]

theorem pysplitAux_append (sep : Char) (x y : Str) :
    pysplitAux sep (x ++ sep :: y) =
      ((pysplitAux sep x).1, (pysplitAux sep x).2 ++ pysplit sep y) := by
  induction x with
  | nil =>
    rw [List.nil_append]
    rw [show pysplitAux sep (sep :: y) =
        ([], (pysplitAux sep y).1 :: (pysplitAux sep y).2) by
          rw [pysplitAux]; rw [if_pos rfl]]
    rfl
  | cons c cx ih =>
    rw [List.cons_append]
    by_cases hc : c = sep
    · rw [show pysplitAux sep (c :: (cx ++ sep :: y)) =
          ([], (pysplitAux sep (cx ++ sep :: y)).1 ::
               (pysplitAux sep (cx ++ sep :: y)).2) by
            rw [pysplitAux]; rw [if_pos hc]]
      rw [show pysplitAux sep (c :: cx) =
          ([], (pysplitAux sep cx).1 :: (pysplitAux sep cx).2) by
            rw [pysplitAux]; rw [if_pos hc]]
      rw [ih]
      rfl
    · rw [show pysplitAux sep (c :: (cx ++ sep :: y)) =
          (c :: (pysplitAux sep (cx ++ sep :: y)).1,
           (pysplitAux sep (cx ++ sep :: y)).2) by
            rw [pysplitAux]; rw [if_neg hc]]
      rw [show pysplitAux sep (c :: cx) =
          (c :: (pysplitAux sep cx).1, (pysplitAux sep cx).2) by
            rw [pysplitAux]; rw [if_neg hc]]
      rw [ih]

/-- Splitting distributes over a separator occurrence. -/
theorem pysplit_append (sep : Char) (x y : Str) :
    pysplit sep (x ++ sep :: y) = pysplit sep x ++ pysplit sep y := by
  rw [pysplit_cons_form, pysplit_cons_form, pysplitAux_append]
  rfl

theorem pysplitAux_no_sep (sep : Char) (x : Str) (h : sep ∉ x) :
    pysplitAux sep x = (x, []) := by
  induction x with
  | nil => rfl
  | cons c cx ih =>
    have hc : c ≠ sep := fun he => h (he ▸ List.mem_cons_self c cx)
    have hcx : sep ∉ cx := fun hm => h (List.mem_cons_of_mem c hm)
    rw [show pysplitAux sep (c :: cx) =
        (c :: (pysplitAux sep cx).1, (pysplitAux sep cx).2) by
          rw [pysplitAux]; rw [if_neg hc]]
    rw [ih hcx]

/-- A string without the separator splits into the singleton chunk. -/
theorem pysplit_no_sep (sep : Char) (x : Str) (h : sep ∉ x) : pysplit sep x = [x] := by
  rw [pysplit_cons_form, pysplitAux_no_sep sep x h]

/-- Round trip: splitting a join of nonempty, separator-free chunks
recovers the chunks. -/
theorem pysplit_pyjoin (sep : Char) (l : List Str) (hne : l ≠ [])
    (hsep : ∀ x ∈ l, sep ∉ x) : pysplit sep (pyjoin sep l) = l := by
  induction l with
  | nil => exact absurd rfl hne
  | cons x xs ih =>
    cases xs with
    | nil =>
      simp only [pyjoin]
      exact pysplit_no_sep sep x (hsep x (List.mem_cons_self x []))
    | cons y ys =>
      rw [pyjoin_cons_cons, pysplit_append]
      rw [pysplit_no_sep sep x (hsep x (List.mem_cons_self x _))]
      rw [ih (by simp) (fun z hz => hsep z (List.mem_cons_of_mem x hz))]
      rfl

/-- The first chunk of a split is a literal prefix of the string. -/
theorem pysplitAux_fst_append (sep : Char) (s : Str) :
    ∃ b, s = (pysplitAux sep s).1 ++ b := by
  have h := pyjoin_pysplit sep s
  rw [pysplit_cons_form] at h
  cases ht : (pysplitAux sep s).2 with
  | nil =>
    rw [ht] at h
    simp only [pyjoin] at h
    exact ⟨[], by rw [List.append_nil]; exact h.symm⟩
  | cons h2 t2 =>
    rw [ht, pyjoin_cons_cons] at h
    exact ⟨sep :: pyjoin sep (h2 :: t2), h.symm⟩

/-- Every chunk of a split occurs contiguously inside the original string. -/
theorem mem_pysplit_decomp (sep : Char) (s x : Str) (h : x ∈ pysplit sep s) :
    ∃ a b, s = a ++ x ++ b := by
  induction s with
  | nil =>
    simp [pysplit, pysplitAux] at h
    exact ⟨[], [], by simp [h]⟩
  | cons c cs ih =>
    by_cases hc : c = sep
    · rw [pysplit_cons_form,
        show pysplitAux sep (c :: cs) =
          ([], (pysplitAux sep cs).1 :: (pysplitAux sep cs).2) by
            rw [pysplitAux]; rw [if_pos hc]] at h
      rcases List.mem_cons.mp h with h0 | h1
      · exact ⟨[], c :: cs, by simp [h0]⟩
      · rcases ih (by rw [pysplit_cons_form]; exact h1) with ⟨a, b, hab⟩
        exact ⟨c :: a, b, by simp [hab]⟩
    · rw [pysplit_cons_form,
        show pysplitAux sep (c :: cs) =
          (c :: (pysplitAux sep cs).1, (pysplitAux sep cs).2) by
            rw [pysplitAux]; rw [if_neg hc]] at h
      rcases List.mem_cons.mp h with h0 | h1
      · rcases pysplitAux_fst_append sep cs with ⟨b, hb⟩
        refine ⟨[], b, ?_⟩
        rw [h0, List.nil_append, List.cons_append, ← hb]
      · have h1' : x ∈ pysplit sep cs := by
          rw [pysplit_cons_form]
          exact List.mem_cons_of_mem _ h1
        rcases ih h1' with ⟨a, b, hab⟩
        exact ⟨c :: a, b, by simp [hab]⟩

/-- A string whose substring test fails for `pat` has no chunk equal to `pat`. -/
theorem not_mem_pysplit_of_not_substrB (sep : Char) (s pat : Str)
    (h : substrB pat s = false) : pat ∉ pysplit sep s := by
  intro hmem
  rcases mem_pysplit_decomp sep s pat hmem with ⟨a, b, hab⟩
  rw [hab, substrB_of_decomp] at h
  exact Bool.true_eq_false.mp h

theorem pyremove_append_singleton (a : Str) (l : List Str) (h : a ∉ l) :
    pyremove a (l ++ [a]) = some l := by
  induction l with
  | nil => simp [pyremove]
  | cons x xs ih =>
    have hx : x ≠ a := fun he => h (he ▸ List.mem_cons_self x xs)
    have hxs : a ∉ xs := fun hm => h (List.mem_cons_of_mem x hm)
    simp only [List.cons_append, pyremove, if_neg hx, List.append_eq, ih hxs,
      Option.map_some']

/-- Python's `l.remove(a)` raises exactly when `a` is not an element. -/
theorem pyremove_eq_none_of_not_mem (a : Str) (l : List Str) (h : a ∉ l) :
    pyremove a l = none := by
  induction l with
  | nil => rfl
  | cons x xs ih =>
    have hx : x ≠ a := fun he => h (he ▸ List.mem_cons_self x xs)
    have hxs : a ∉ xs := fun hm => h (List.mem_cons_of_mem x hm)
    simp [pyremove, hx, ih hxs]

/-- Python's `l.remove(a)` succeeds exactly when `a` is an element. -/
theorem pyremove_isSome_of_mem (a : Str) (l : List Str) (h : a ∈ l) :
    ∃ ts, pyremove a l = some ts := by
  induction l with
  | nil => cases h
  | cons x xs ih =>
    by_cases hx : x = a
    · exact ⟨xs, by simp [pyremove, hx]⟩
    · rcases List.mem_cons.mp h with he | hm
      · exact absurd he.symm hx
      · rcases ih hm with ⟨ts, hts⟩
        exact ⟨x :: ts, by simp [pyremove, hx, hts]⟩

theorem dictGet_resultsOf_none (ids : List Str) (store : Store) (p : Str)
    (h : store p = none) : dictGet (resultsOf ids store) p = none := by
  induction ids with
  | nil => rfl
  | cons i ids ih =>
    unfold resultsOf at ih ⊢
    rw [List.filterMap_cons]
    cases hi : store i with
    | none => simpa using ih
    | some v =>
      simp only [Option.map_some']
      rw [dictGet]
      have hne : i ≠ p := fun he => by rw [he, h] at hi; cases hi
      rw [if_neg hne]
      exact ih

theorem dictGet_resultsOf_some (ids : List Str) (store : Store) (p : Str) (v : Str)
    (h : store p = some v) (hmem : p ∈ ids) :
    dictGet (resultsOf ids store) p = some v := by
  induction ids with
  | nil => cases hmem
  | cons i ids ih =>
    unfold resultsOf at ih ⊢
    rw [List.filterMap_cons]
    by_cases hip : i = p
    · subst hip
      rw [h]
      simp only [Option.map_some']
      rw [dictGet, if_pos rfl]
    · have hm : p ∈ ids := by
        rcases List.mem_cons.mp hmem with he | hm
        · exact absurd he.symm hip
        · exact hm
      cases hi : store i with
      | none =>
        simp only [Option.map_none']
        exact ih hm
      | some w =>
        simp only [Option.map_some']
        rw [dictGet, if_neg hip]
        exact ih hm

theorem dictGet_resultsOf (ids : List Str) (store : Store) (p : Str)
    (hmem : p ∈ ids) : dictGet (resultsOf ids store) p = store p := by
  cases h : store p with
  | none => exact dictGet_resultsOf_none ids store p h
  | some v => exact dictGet_resultsOf_some ids store p v h hmem

theorem resultsOf_eq_nil (ids : List Str) (store : Store)
    (h : resultsOf ids store = []) : ∀ p ∈ ids, store p = none := by
  intro p hp
  have := List.filterMap_eq_nil_iff.mp h p hp
  cases hs : store p with
  | none => rfl
  | some v => rw [hs] at this; cases this

/-- The add loop of `setPagesTag` is exactly `pageAddSpec` over the batch. -/
theorem setPagesTagAddEntries_eq (pages : List Str) (tag : Str) (store : Store) :
    setPagesTagAddEntries (resultsOf pages store) pages tag =
      pages.filterMap (pageAddSpec store tag) := by
  unfold setPagesTagAddEntries
  apply List.filterMap_congr
  intro p hp
  by_cases hlen : (resultsOf pages store).length > 0
  · rw [if_pos hlen, dictGet_resultsOf pages store p hp]
    rfl
  · have hnil : resultsOf pages store = [] := by
      cases hres : resultsOf pages store with
      | nil => rfl
      | cons a l => rw [hres] at hlen; simp at hlen
    rw [if_neg hlen]
    unfold pageAddSpec
    rw [resultsOf_eq_nil pages store hnil p hp]

/-- The add loop of `setTermsTag` emits exactly the spec creates. -/
theorem setTermsTagAddEntries_eq (terms : List Str) (tag : Str) (store : Store) :
    setTermsTagAddEntries (resultsOf terms store) terms tag =
      terms.filterMap (termCreateSpec store tag) := by
  unfold setTermsTagAddEntries
  apply List.filterMap_congr
  intro p hp
  by_cases hlen : (resultsOf terms store).length > 0
  · rw [if_pos hlen, dictGet_resultsOf terms store p hp]
    rfl
  · have hnil : resultsOf terms store = [] := by
      cases hres : resultsOf terms store with
      | nil => rfl
      | cons a l => rw [hres] at hlen; simp at hlen
    rw [if_neg hlen]
    unfold termCreateSpec
    rw [resultsOf_eq_nil terms store hnil p hp]

/-- The add loop of `setTermsTag` emits exactly the spec updates. -/
theorem setTermsTagUpdateEntries_eq (terms : List Str) (tag : Str) (store : Store) :
    setTermsTagUpdateEntries (resultsOf terms store) terms tag =
      terms.filterMap (termUpdateSpec store tag) := by
  unfold setTermsTagUpdateEntries
  apply List.filterMap_congr
  intro p hp
  by_cases hlen : (resultsOf terms store).length > 0
  · rw [if_pos hlen, dictGet_resultsOf terms store p hp]
    rfl
  · have hnil : resultsOf terms store = [] := by
      cases hres : resultsOf terms store with
      | nil => rfl
      | cons a l => rw [hres] at hlen; simp at hlen
    rw [if_neg hlen]
    unfold termUpdateSpec
    rw [resultsOf_eq_nil terms store hnil p hp]

theorem update_document_nil (store : Store) : update_document [] store = store := rfl

theorem update_document_single (i t : Str) (store : Store) :
    update_document [⟨i, t⟩] store =
      fun u => if u = i then some t else store u := rfl

theorem resultsOf_single_some (i s : Str) (store : Store) (h : store i = some s) :
    resultsOf [i] store = [(i, s)] := by
  unfold resultsOf
  rw [List.filterMap_cons, h]
  rfl

theorem resultsOf_single_none (i : Str) (store : Store) (h : store i = none) :
    resultsOf [i] store = [] := by
  unfold resultsOf
  rw [List.filterMap_cons, h]
  rfl

/-- Singleton-batch evaluation of the page add path when the stored string
lacks the tag as a substring: one update appending the tag. -/
theorem setPagesTagOps_add_single (i s tag : Str) (store : Store)
    (h : store i = some s) (hsub : substrB tag s = false) :
    setPagesTagOps [i] tag true store = some [⟨i, s ++ ';' :: tag⟩] := by
  unfold setPagesTagOps get_documents
  rw [if_pos (by simp)]
  rw [Option.some_bind, if_pos rfl]
  rw [setPagesTagAddEntries_eq]
  unfold pageAddSpec
  rw [List.filterMap_cons, h]
  simp only [hsub]
  rfl

/-- Singleton-batch evaluation of the page add path when the stored string
already contains the tag as a substring: no entry. -/
theorem setPagesTagOps_add_single_noop (i s tag : Str) (store : Store)
    (h : store i = some s) (hsub : substrB tag s = true) :
    setPagesTagOps [i] tag true store = some [] := by
  unfold setPagesTagOps get_documents
  rw [if_pos (by simp)]
  rw [Option.some_bind, if_pos rfl]
  rw [setPagesTagAddEntries_eq]
  unfold pageAddSpec
  rw [List.filterMap_cons, h]
  simp [hsub]

/-- Singleton-batch evaluation of the page remove path on a substring hit
whose removal succeeds: one update with the tag's first occurrence removed. -/
theorem setPagesTagOps_remove_single (i s tag : Str) (store : Store) (ts : List Str)
    (h : store i = some s) (hsub : substrB tag s = true)
    (hrem : pyremove tag (pysplit ';' s) = some ts) :
    setPagesTagOps [i] tag false store = some [⟨i, pyjoin ';' ts⟩] := by
  unfold setPagesTagOps get_documents
  rw [if_pos (by simp)]
  rw [Option.some_bind, if_neg (by simp)]
  rw [resultsOf_single_some i s store h]
  unfold setPagesTagRemoveEntries
  rw [if_pos (by simp)]
  simp only [show dictGet [(i, s)] i = some s from by rw [dictGet, if_pos rfl],
    hsub, hrem]
  rfl

/-- Singleton-batch evaluation of the page remove path on an id with no
stored record or without the tag as substring: no entry, hence a no-op. -/
theorem setPagesTagOps_remove_single_noop (i tag : Str) (store : Store)
    (h : store i = none ∨ ∃ s, store i = some s ∧ substrB tag s = false) :
    setPagesTagOps [i] tag false store = some [] := by
  unfold setPagesTagOps get_documents
  rw [if_pos (by simp)]
  rw [Option.some_bind, if_neg (by simp)]
  rcases h with h | ⟨s, h, hsub⟩
  · rw [resultsOf_single_none i store h]
    rfl
  · rw [resultsOf_single_some i s store h]
    unfold setPagesTagRemoveEntries
    rw [if_pos (by simp)]
    simp only [show dictGet [(i, s)] i = some s from by rw [dictGet, if_pos rfl],
      hsub]
    rfl

theorem pageSummary_foldl (l : List (Option (List Str))) :
    ∀ acc : Nat × Nat × Nat,
      l.foldl pageSummaryStep acc =
        (acc.1 + l.countP relevantDoc, acc.2.1 + l.countP irrelevantOnlyDoc,
         acc.2.2 + l.countP neutralDoc) := by
  induction l with
  | nil => intro acc; simp [List.countP_nil]
  | cons r l ih =>
    intro acc
    rw [List.foldl_cons, ih]
    rw [List.countP_cons, List.countP_cons, List.countP_cons]
    cases r with
    | none =>
      simp [pageSummaryStep, relevantDoc, irrelevantOnlyDoc, neutralDoc,
        Prod.ext_iff]
      try omega
    | some tags =>
      by_cases h1 : str "Relevant" ∈ tags
      · simp [pageSummaryStep, relevantDoc, irrelevantOnlyDoc, neutralDoc, h1,
          Prod.ext_iff]
        try omega
      · by_cases h2 : str "Irrelevant" ∈ tags
        · simp [pageSummaryStep, relevantDoc, irrelevantOnlyDoc, neutralDoc,
            h1, h2, Prod.ext_iff]
          try omega
        · simp [pageSummaryStep, relevantDoc, irrelevantOnlyDoc, neutralDoc,
            h1, h2, Prod.ext_iff]
          try omega

theorem bucket_exclusive (r : Option (List Str)) :
    (if relevantDoc r then 1 else 0) + (if irrelevantOnlyDoc r then 1 else 0) +
      (if neutralDoc r then 1 else 0) = 1 := by
  cases r with
  | none => rfl
  | some tags =>
    by_cases h1 : str "Relevant" ∈ tags
    · simp [relevantDoc, irrelevantOnlyDoc, neutralDoc, h1]
    · by_cases h2 : str "Irrelevant" ∈ tags
      · simp [relevantDoc, irrelevantOnlyDoc, neutralDoc, h1, h2]
      · simp [relevantDoc, irrelevantOnlyDoc, neutralDoc, h1, h2]

/-- C4: `getPagesSummarySeedCrawler` counts every fetched document in exactly
one bucket — `Relevant` in its tag set puts it in the relevant bucket,
otherwise `Irrelevant` in the irrelevant bucket, otherwise (including
documents with no tag field) in the neutral bucket, `Relevant` taking
priority — and the dataset `A` (no tags), `B` (`Relevant`),
`C` (`Irrelevant;Relevant`) yields relevant 2, irrelevant 0, neutral 1. -/
theorem page_summary_buckets :
    (∀ results : List (Option (List Str)),
      pageSummaryCounts results =
        (results.countP relevantDoc, results.countP irrelevantOnlyDoc,
         results.countP neutralDoc)) ∧
    (∀ results : List (Option (List Str)),
      results.countP relevantDoc + results.countP irrelevantOnlyDoc +
        results.countP neutralDoc = results.length) ∧
    pageSummaryCounts
        [none, some [str "Relevant"], some [str "Irrelevant", str "Relevant"]] =
      (2, 0, 1) := by
  refine ⟨?_, ?_, by decide⟩
  · intro results
    unfold pageSummaryCounts
    rw [pageSummary_foldl]
    simp
  · intro results
    induction results with
    | nil => rfl
    | cons r l ih =>
      rw [List.countP_cons, List.countP_cons, List.countP_cons, List.length_cons]
      have h := bucket_exclusive r
      omega

/-- C5: both arms of the `opt_applyFilter` conditional of
`getPagesSummarySeedCrawler` issue the identical `range` query, so the
summary is the same whether or not filtering is requested. -/
theorem page_summary_filter_branches_equal :
    ∀ (queryRange : RangeArgs → List (Option (List Str))) (ts1 ts2 : Int)
      (index : Str),
      getPagesSummarySeedCrawler queryRange ts1 ts2 index true =
        getPagesSummarySeedCrawler queryRange ts1 ts2 index false := by
  intro q ts1 ts2 index
  rfl

/-- C6 counterexample: the codec the code induces does not decode the
encoding of the empty tag set back to the empty set — Python's
`''.split(';')` is `['']`, a singleton holding the empty string. -/
theorem decode_encode_empty_set :
    encode [] = [] ∧ decode (some (encode [])) = [[]] ∧
      decode (some (encode [])) ≠ [] := by
  exact ⟨rfl, rfl, by decide⟩

/-- C6 amended: decoding an absent tag field yields the empty set and
encoding the empty set yields the empty string, and decode-after-encode is
the identity on every nonempty tag list whose elements avoid `';'`; the
empty set itself does not round-trip (see the counterexample). -/
theorem tag_codec_round_trip :
    decode none = [] ∧ encode [] = [] ∧
    (∀ l : List Str, l ≠ [] → (∀ x ∈ l, ';' ∉ x) →
      decode (some (encode l)) = l) := by
  refine ⟨rfl, rfl, ?_⟩
  intro l hne hsep
  unfold decode encode
  exact pysplit_pyjoin ';' l hne hsep

/-- C6 witness: a concrete two-element tag list round-trips. -/
theorem tag_codec_round_trip_witness :
    decode (some (encode [str "Relevant", str "Positive"])) =
      [str "Relevant", str "Positive"] :=
  tag_codec_round_trip.2.2 [str "Relevant", str "Positive"] (by decide) (by decide)

/-- C9: `applyFilter` with non-empty text sets the session filter to that
text; with absent or empty text it leaves the session untouched (the previous
filter survives), and in every case the other session fields are unchanged. -/
theorem apply_filter_behavior :
    (∀ session : CrawlerSession, applyFilter session none = session) ∧
    (∀ session : CrawlerSession, applyFilter session (some []) = session) ∧
    (∀ (session : CrawlerSession) (t : Str), t ≠ [] →
      applyFilter session (some t) = { session with filter := some t }) ∧
    (∀ (session : CrawlerSession) (terms : Option Str),
      (applyFilter session terms).activeCrawlerIndex = session.activeCrawlerIndex ∧
      (applyFilter session terms).pagesCap = session.pagesCap) := by
  refine ⟨fun s => rfl, fun s => rfl, ?_, ?_⟩
  · intro s t ht
    show (if t = [] then s else { s with filter := some t }) = _
    rw [if_neg ht]
  · intro s terms
    unfold applyFilter
    cases terms with
    | none => exact ⟨rfl, rfl⟩
    | some t => by_cases ht : t = [] <;> simp [ht]

/-- C9 witness: `applyFilter` on a concrete session sets a non-empty filter
and ignores an empty one. -/
theorem apply_filter_behavior_witness :
    applyFilter ⟨none, some (str "old"), 1000⟩ (some (str "ebola")) =
      ⟨none, some (str "ebola"), 1000⟩ ∧
    applyFilter ⟨none, some (str "old"), 1000⟩ (some []) =
      ⟨none, some (str "old"), 1000⟩ :=
  ⟨apply_filter_behavior.2.2.1 ⟨none, some (str "old"), 1000⟩ (str "ebola")
      (by decide),
   apply_filter_behavior.2.1 ⟨none, some (str "old"), 1000⟩⟩

/-- C10: `get_documents` on an empty id batch raises (`results` is only bound
inside the non-empty branch), so both tagging operations fail on an empty
batch instead of being no-ops. -/
theorem empty_batch_tagging_fails :
    (∀ store : Store, get_documents [] store = none) ∧
    (∀ (tag : Str) (applyTagFlag : Bool) (store : Store),
      setPagesTag [] tag applyTagFlag store = none) ∧
    (∀ (tag : Str) (applyTagFlag : Bool) (store : Store),
      setTermsTag [] tag applyTagFlag store = none) :=
  ⟨fun _ => rfl, fun _ _ _ => rfl, fun _ _ _ => rfl⟩

/-- C1 counterexample: the membership test of the add path is a substring
test on the raw string, not tag-set membership — the stored tag set
`{Positively}` lacks `Positive`, yet applying `Positive` emits no update
at all (the claim demands an update adding the tag). -/
theorem substring_blocks_missing_tag_update :
    decode (storeSubstr (str "p")) = [str "Positively"] ∧
    str "Positive" ∉ decode (storeSubstr (str "p")) ∧
    setPagesTagOps [str "p"] (str "Positive") true storeSubstr = some [] := by
  exact ⟨by decide, by decide, by decide⟩

/-- C1 amended: per id, the add path emits a create with tag string `tag` for
an id with no stored record; an update appending `;tag` for an id whose raw
stored tag string does not contain `tag` as a substring; and nothing for an
id whose stored string contains `tag` as a substring (so the second of two
identical applications is a no-op after a first-call update). -/
theorem tag_add_characterization :
    (∀ (store : Store) (pages : List Str) (tag : Str), pages ≠ [] →
      setPagesTagOps pages tag true store =
        some (pages.filterMap (pageAddSpec store tag))) ∧
    (∀ (store : Store) (terms : List Str) (tag : Str), terms ≠ [] →
      setTermsTagOps terms tag true store =
        some (terms.filterMap (termCreateSpec store tag),
              terms.filterMap (termUpdateSpec store tag))) ∧
    (∀ (store : Store) (i s tag : Str), store i = some s →
      substrB tag s = false →
      setPagesTagOps [i] tag true store = some [⟨i, s ++ ';' :: tag⟩] ∧
      ∀ store1, setPagesTag [i] tag true store = some store1 →
        setPagesTagOps [i] tag true store1 = some [] ∧
        setPagesTag [i] tag true store1 = some store1) := by
  refine ⟨?_, ?_, ?_⟩
  · intro store pages tag hne
    unfold setPagesTagOps get_documents
    rw [if_pos (List.length_pos.mpr hne)]
    rw [Option.some_bind, if_pos rfl]
    rw [setPagesTagAddEntries_eq]
  · intro store terms tag hne
    unfold setTermsTagOps get_documents
    rw [if_pos (List.length_pos.mpr hne)]
    rw [Option.some_bind, if_pos rfl]
    rw [setTermsTagAddEntries_eq, setTermsTagUpdateEntries_eq]
  · intro store i s tag h hsub
    have hops := setPagesTagOps_add_single i s tag store h hsub
    refine ⟨hops, ?_⟩
    intro store1 hst1
    have hst1' : setPagesTag [i] tag true store =
        some (update_document [⟨i, s ++ ';' :: tag⟩] store) := by
      unfold setPagesTag
      rw [hops, Option.map_some']
    rw [hst1'] at hst1
    have hstore1 : store1 = update_document [⟨i, s ++ ';' :: tag⟩] store :=
      (Option.some.inj hst1).symm
    have hi1 : store1 i = some (s ++ ';' :: tag) := by
      rw [hstore1, update_document_single]
      show (if i = i then some (s ++ ';' :: tag) else store i) = some (s ++ ';' :: tag)
      rw [if_pos rfl]
    have hsub1 : substrB tag (s ++ ';' :: tag) = true := by
      have h0 := substrB_sandwich tag (s ++ [';']) []
      rw [List.append_nil] at h0
      rw [List.append_assoc] at h0
      simpa using h0
    have hops1 := setPagesTagOps_add_single_noop i (s ++ ';' :: tag) tag store1 hi1 hsub1
    refine ⟨hops1, ?_⟩
    unfold setPagesTag
    rw [hops1, Option.map_some', update_document_nil]

/-- C1 witness: tagging `[a, b]` with `Positive` against `storeW` emits a
create-shaped entry for `a` and an update appending the tag for `b`. -/
theorem tag_add_characterization_witness :
    setPagesTagOps [str "a", str "b"] (str "Positive") true storeW =
      some [⟨str "a", str "Positive"⟩, ⟨str "b", str "Negative;Positive"⟩] :=
  (tag_add_characterization.1 storeW [str "a", str "b"] (str "Positive")
      (by decide)).trans (by decide)

/-- C2 counterexample: on an id that already carries the tag, tagging is a
no-op but untagging still removes it, so tag-then-untag does not restore the
prior state — the stored tag string ends as the empty string instead of
`X`. -/
theorem tag_untag_not_symmetric_when_already_tagged :
    ((setPagesTag [str "p"] (str "X") true storeX).bind
        (fun st => setPagesTag [str "p"] (str "X") false st)).map
      (fun st => st (str "p")) = some (some []) ∧
    storeX (str "p") = some (str "X") ∧
    (some ([] : Str) : Option Str) ≠ some (str "X") := by
  exact ⟨by decide, by decide, by decide⟩

/-- C2 amended: tag-then-untag restores the store exactly for an id whose
stored tag string does not contain the (`;`-free) tag as a substring; the
pages remove path emits an update with the tag's first occurrence removed for
an id whose stored string contains the tag as an element of its `';'`-split
list, raises — aborting the call with neither update nor no-op — for an id
whose stored string contains the tag only as a substring and not as a split
element (`tags.remove(tag)` raises `ValueError` at line 364), and is a no-op
for ids with no record or without the tag as substring; the terms remove path
instead raises whenever its substring test passes (it joins the `None`
returned by `list.remove`). -/
theorem tag_untag_round_trip :
    (∀ (store : Store) (i s tag : Str), store i = some s →
      substrB tag s = false → ';' ∉ tag →
      (setPagesTag [i] tag true store).bind
        (fun st => setPagesTag [i] tag false st) = some store) ∧
    (∀ (store : Store) (i s tag : Str), store i = some s →
      substrB tag s = true → tag ∈ pysplit ';' s →
      ∃ ts, pyremove tag (pysplit ';' s) = some ts ∧
        setPagesTagOps [i] tag false store = some [⟨i, pyjoin ';' ts⟩]) ∧
    (∀ (store : Store) (i tag : Str),
      store i = none ∨ (∃ s, store i = some s ∧ substrB tag s = false) →
      setPagesTag [i] tag false store = some store) ∧
    (∀ (store : Store) (i s tag : Str), store i = some s →
      substrB tag s = true → tag ∉ pysplit ';' s →
      setPagesTag [i] tag false store = none) ∧
    (∀ (store : Store) (i s tag : Str), store i = some s →
      substrB tag s = true → setTermsTag [i] tag false store = none) := by
  refine ⟨?_, ?_, ?_, ?_, ?_⟩
  · intro store i s tag h hsub hsep
    have hops := setPagesTagOps_add_single i s tag store h hsub
    have hst1 : setPagesTag [i] tag true store =
        some (update_document [⟨i, s ++ ';' :: tag⟩] store) := by
      unfold setPagesTag
      rw [hops, Option.map_some']
    rw [hst1, Option.some_bind]
    set store1 := update_document [⟨i, s ++ ';' :: tag⟩] store with hstore1
    have hi1 : store1 i = some (s ++ ';' :: tag) := by
      rw [hstore1, update_document_single]
      show (if i = i then some (s ++ ';' :: tag) else store i) = some (s ++ ';' :: tag)
      rw [if_pos rfl]
    have hsub1 : substrB tag (s ++ ';' :: tag) = true := by
      have h0 := substrB_sandwich tag (s ++ [';']) []
      rw [List.append_nil] at h0
      rw [List.append_assoc] at h0
      simpa using h0
    have hsplit : pysplit ';' (s ++ ';' :: tag) = pysplit ';' s ++ [tag] := by
      rw [pysplit_append, pysplit_no_sep ';' tag hsep]
    have hnm : tag ∉ pysplit ';' s :=
      not_mem_pysplit_of_not_substrB ';' s tag hsub
    have hrem : pyremove tag (pysplit ';' (s ++ ';' :: tag)) =
        some (pysplit ';' s) := by
      rw [hsplit]
      exact pyremove_append_singleton tag (pysplit ';' s) hnm
    have hops2 := setPagesTagOps_remove_single i (s ++ ';' :: tag) tag store1
      (pysplit ';' s) hi1 hsub1 hrem
    unfold setPagesTag
    rw [hops2, Option.map_some']
    congr 1
    funext u
    rw [update_document_single]
    show (if u = i then some (pyjoin ';' (pysplit ';' s)) else store1 u) = store u
    by_cases hu : u = i
    · rw [if_pos hu, pyjoin_pysplit, hu, h]
    · rw [if_neg hu, hstore1, update_document_single]
      show (if u = i then some (s ++ ';' :: tag) else store u) = store u
      rw [if_neg hu]
  · intro store i s tag h hsub hmem
    rcases pyremove_isSome_of_mem tag (pysplit ';' s) hmem with ⟨ts, hts⟩
    exact ⟨ts, hts, setPagesTagOps_remove_single i s tag store ts h hsub hts⟩
  · intro store i tag h
    have hops := setPagesTagOps_remove_single_noop i tag store h
    unfold setPagesTag
    rw [hops, Option.map_some', update_document_nil]
  · intro store i s tag h hsub hnm
    have hrem : pyremove tag (pysplit ';' s) = none :=
      pyremove_eq_none_of_not_mem tag (pysplit ';' s) hnm
    have hops : setPagesTagOps [i] tag false store = none := by
      unfold setPagesTagOps get_documents
      rw [if_pos (by simp)]
      rw [Option.some_bind, if_neg (by simp)]
      rw [resultsOf_single_some i s store h]
      unfold setPagesTagRemoveEntries
      rw [if_pos (by simp)]
      simp only [show dictGet [(i, s)] i = some s from by rw [dictGet, if_pos rfl],
        hsub, hrem, if_true]
    unfold setPagesTag
    rw [hops]
    rfl
  · intro store i s tag h hsub
    unfold setTermsTag setTermsTagOps get_documents
    rw [if_pos (by simp)]
    rw [Option.some_bind, if_neg (by simp)]
    rw [resultsOf_single_some i s store h]
    unfold setTermsTagRemoveEntries
    rw [if_pos (by simp)]
    simp only [show dictGet [(i, s)] i = some s from by rw [dictGet, if_pos rfl],
      hsub]
    rfl

/-- C2 witness: tagging then untagging `Positive` on a page tagged
`Negative` restores the store. -/
theorem tag_untag_round_trip_witness :
    (setPagesTag [str "p"] (str "Positive") true storeP).bind
      (fun st => setPagesTag [str "p"] (str "Positive") false st) = some storeP :=
  tag_untag_round_trip.1 storeP (str "p") (str "Negative") (str "Positive")
    (by decide) (by decide) (by decide)

/-- C3 counterexample: on the claim's own scenario (`a` has no record, `b`
carries `Negative`), `setPagesTag` issues a single `update_document` call
carrying both the create-shaped entry and the update — not two separate
calls with the creates first. -/
theorem pages_tagging_single_update_call :
    setPagesTagCalls [str "a", str "b"] (str "Positive") true storeW =
      some [GatewayCall.update
        [⟨str "a", str "Positive"⟩, ⟨str "b", str "Negative;Positive"⟩]] ∧
    setPagesTagCalls [str "a", str "b"] (str "Positive") true storeW ≠
      some [GatewayCall.create [⟨str "a", str "Positive"⟩],
            GatewayCall.update [⟨str "b", str "Negative;Positive"⟩]] := by
  exact ⟨by decide, by decide⟩

/-- C3 amended: `setTermsTag` submits its output as two separate batched
calls, the `add_document` creates first and the `update_document` updates
second, each skipped when empty; `setPagesTag` instead submits every entry —
create-shaped and update-shaped alike — in one unconditional
`update_document` batch; on the scenario the batch holds exactly the create
for `a` with tag `Positive` and the update for `b` with `Negative;Positive`. -/
theorem tagging_gateway_calls :
    (∀ (store : Store) (pages : List Str) (tag : Str) (applyTagFlag : Bool)
      (es : List TagEntry),
      setPagesTagOps pages tag applyTagFlag store = some es →
      setPagesTagCalls pages tag applyTagFlag store =
        some [GatewayCall.update es]) ∧
    (∀ (store : Store) (terms : List Str) (tag : Str) (applyTagFlag : Bool)
      (ops : List TagEntry × List TagEntry),
      setTermsTagOps terms tag applyTagFlag store = some ops →
      setTermsTagCalls terms tag applyTagFlag store =
        some ((if ops.1 = [] then [] else [GatewayCall.create ops.1]) ++
              (if ops.2 = [] then [] else [GatewayCall.update ops.2]))) ∧
    setPagesTagOps [str "a", str "b"] (str "Positive") true storeW =
      some [⟨str "a", str "Positive"⟩, ⟨str "b", str "Negative;Positive"⟩] := by
  refine ⟨?_, ?_, by decide⟩
  · intro store pages tag applyTagFlag es hops
    unfold setPagesTagCalls
    rw [hops, Option.map_some']
  · intro store terms tag applyTagFlag ops hops
    unfold setTermsTagCalls
    rw [hops, Option.map_some']

/-- C3 witness: the single update call on the scenario, via the
characterization. -/
theorem tagging_gateway_calls_witness :
    setPagesTagCalls [str "a", str "b"] (str "Positive") true storeW =
      some [GatewayCall.update
        [⟨str "a", str "Positive"⟩, ⟨str "b", str "Negative;Positive"⟩]] :=
  tagging_gateway_calls.1 storeW [str "a", str "b"] (str "Positive") true
    [⟨str "a", str "Positive"⟩, ⟨str "b", str "Negative;Positive"⟩] (by decide)

/-- The coordinate merge, characterized: rows are consumed in order, each
assigning `x`/`y` from its first two entries; pages beyond the rows keep
their prior coordinates. -/
theorem mergeCoords_eq (pages : List DocRow) :
    ∀ rows : List (List Int), (∀ row ∈ rows, 2 ≤ row.length) →
      mergeCoords pages rows =
        some (List.zipWith
            (fun p row => { p with x := row.getD 0 0, y := row.getD 1 0 })
            pages rows ++ pages.drop rows.length) := by
  induction pages with
  | nil =>
    intro rows _
    cases rows with
    | nil => rfl
    | cons r rs => rfl
  | cons p ps ih =>
    intro rows hrows
    cases rows with
    | nil => simp [mergeCoords]
    | cons row rs =>
      have h2 := hrows row (List.mem_cons_self _ _)
      cases row with
      | nil => simp at h2
      | cons a row' =>
        cases row' with
        | nil => simp at h2
        | cons b rest =>
          show (mergeCoords ps rs).map
              (fun r => { p with x := a, y := b } :: r) = _
          rw [ih rs (fun r hr => hrows r (List.mem_cons_of_mem _ hr))]
          rw [Option.map_some']
          rw [List.zipWith_cons_cons, List.length_cons, List.drop_succ_cons]
          rfl

/-- C7: `pcaProjectPages` reduces the term-frequency matrix with the
reduction routine configured for exactly 2 output dimensions and assigns
`page[i].x`, `page[i].y` from row `i` of the reduced matrix in input order;
every page beyond the reduced output keeps its prior coordinates, and that
degenerate case is not an error. -/
theorem projection_assigns_rows_in_order :
    ∀ (tfidfData : List Str → List (List Int))
      (pcaFit : List (List Int) → Nat → List Int × List (List Int))
      (pages : List DocRow),
      (∀ row ∈ (runPCASKLearn pcaFit
          (tfidfData (pages.map (fun p => p.url))) 2).2, 2 ≤ row.length) →
      pcaProjectPages tfidfData pcaFit pages =
        some (List.zipWith
            (fun p row => { p with x := row.getD 0 0, y := row.getD 1 0 })
            pages
            (runPCASKLearn pcaFit (tfidfData (pages.map (fun p => p.url))) 2).2 ++
          pages.drop
            (runPCASKLearn pcaFit
              (tfidfData (pages.map (fun p => p.url))) 2).2.length) := by
  intro tfidfData pcaFit pages hrows
  unfold pcaProjectPages
  exact mergeCoords_eq pages _ hrows

/-- C7 witness: the first page receives the reduced row's coordinates, the
second keeps its prior ones. -/
theorem projection_assigns_rows_in_order_witness :
    pcaProjectPages tfidfW pcaW pagesW =
      some [⟨str "u1", 10, 20, [], 0⟩, ⟨str "u2", 7, 8, [], 0⟩] :=
  (projection_assigns_rows_in_order tfidfW pcaW pagesW (by decide)).trans
    (by decide)

/-- C8: `getTermsSummarySeedCrawler` returns the empty list — without
raising — whenever the positive url set (after falling back to all dataset
urls when none are tagged `Relevant`) holds fewer than 2 urls; and in the
fallback case every returned entry carries a zero positive frequency. -/
theorem top_terms_degenerate_and_fallback :
    (∀ (posRel allIds negUrls : List Str)
      (topTermsOf : List Str → Nat → List Str)
      (ttfOf : List Str → Str → Option Nat) (termStore : Store) (maxTerms : Nat),
      (if posRel.length = 0 then allIds else posRel).length ≤ 1 →
      getTermsSummarySeedCrawler posRel allIds negUrls topTermsOf ttfOf
        termStore maxTerms = some []) ∧
    (∀ (allIds negUrls : List Str) (topTermsOf : List Str → Nat → List Str)
      (ttfOf : List Str → Str → Option Nat) (termStore : Store) (maxTerms : Nat)
      (es : List (Str × Nat × Nat × List Str)),
      getTermsSummarySeedCrawler [] allIds negUrls topTermsOf ttfOf
        termStore maxTerms = some es →
      ∀ e ∈ es, e.2.1 = 0) := by
  constructor
  · intro posRel allIds negUrls topTermsOf ttfOf termStore maxTerms hlen
    unfold getTermsSummarySeedCrawler
    rw [if_neg (by omega)]
  · intro allIds negUrls topTermsOf ttfOf termStore maxTerms es h e he
    unfold getTermsSummarySeedCrawler at h
    simp only [List.length_nil, eq_self_iff_true, if_true] at h
    by_cases hlen : allIds.length > 1
    · rw [if_pos hlen] at h
      rcases Option.map_eq_some'.mp h with ⟨tags, _, hes⟩
      rw [← hes] at he
      rcases List.mem_map.mp he with ⟨term, _, hterm⟩
      rw [← hterm]
    · rw [if_neg hlen] at h
      have : es = [] := (Option.some.inj h).symm
      rw [this] at he
      cases he

/-- C8 witness: with no urls at all the summary is the empty list, and on a
fallback run over two dataset urls the returned entry's positive frequency
is zero. -/
theorem top_terms_degenerate_and_fallback_witness :
    getTermsSummarySeedCrawler [] [] [] topTermsW ttfW termStoreW 50 =
      some [] ∧
    ((str "ebola", 0, 7, []) : Str × Nat × Nat × List Str).2.1 = 0 :=
  ⟨top_terms_degenerate_and_fallback.1 [] [] [] topTermsW ttfW termStoreW 50
      (by decide),
   top_terms_degenerate_and_fallback.2 [str "u1", str "u2"] [str "n1", str "n2"]
      topTermsW ttfW termStoreW 50 [(str "ebola", 0, 7, [])] (by decide)
      (str "ebola", 0, 7, []) (by decide)⟩

end DDT
